import Mathlib

/-!
Verification of the RecipeNow deterministic recipe parser.

Shallow embedding of `apps/api/services/parser.py` (class `RecipeParser`) and of
the evidence-span builder in `apps/worker/jobs.py`.

Conventions of the embedding:
* Python `float` values are modelled as rationals (`ℚ`); the decimal/fraction
  strings exercised here are represented exactly.  `float("inf")`/`"nan"` and
  underscore digit separators are not modelled (no code path under study
  produces or consumes them, and rationals cannot represent them).
* Python regular expressions are hand-translated per pattern, reproducing
  the leftmost search order, greedy/lazy quantifiers and backtracking of
  CPython for
  the concrete patterns compiled in `RecipeParser.__init__`.
* Strings are Lean `String`s; `str.strip()` is `pyStrip`, `str.lower()` is
  `pyLower` (ASCII lower-casing; all texts under study are ASCII), `"x" in s`
  is `strHasSub`.  String helpers are written by structural recursion on the
  character list so that concrete runs reduce inside the kernel.
-/

namespace RecipeNow

/-- Python `\s` / `str.strip()` whitespace class (ASCII part). -/
def pyIsWs (c : Char) : Bool :=
  c == ' ' || c == '\t' || c == '\n' || c == '\r' || c == '\x0b' || c == '\x0c'

/-- `[a-zA-Z]`. -/
def isAsciiAlpha (c : Char) : Bool :=
  ('a' ≤ c && c ≤ 'z') || ('A' ≤ c && c ≤ 'Z')

/-- Drop leading and trailing `pyIsWs` characters. -/
def trimWsL (cs : List Char) : List Char :=
  ((cs.dropWhile pyIsWs).reverse.dropWhile pyIsWs).reverse

/-- Python `str.strip()`. -/
def pyStrip (s : String) : String := String.mk (trimWsL s.toList)

/-- Python `str.lower()` (ASCII). -/
def pyLower (s : String) : String := String.mk (s.toList.map Char.toLower)

/-- Python `str.split(sep)` for a one-character separator: split at every
occurrence, keeping empty pieces. -/
def sepSplitGo (sep : Char) (acc : List Char) : List Char → List String
  | [] => [String.mk acc.reverse]
  | c :: rest =>
    if c == sep then String.mk acc.reverse :: sepSplitGo sep [] rest
    else sepSplitGo sep (c :: acc) rest

/-- Python `s.split("/")`. -/
def splitSlash (s : String) : List String := sepSplitGo '/' [] s.toList

/-- Python `s.endswith(":")`. -/
def endsColon (s : String) : Bool :=
  match s.toList.reverse with
  | c :: _ => c == ':'
  | [] => false

/-- Python `str.rstrip(":")`. -/
def rstripColons (s : String) : String :=
  String.mk ((s.toList.reverse.dropWhile (· == ':')).reverse)

/-- Is `pat` a leading run of `cs`? -/
def lstarts : List Char → List Char → Bool
  | [], _ => true
  | _ :: _, [] => false
  | a :: as, b :: bs => a == b && lstarts as bs

/-- Substring occurrence on char lists (Python `pat in s`). -/
def hasSubL (pat : List Char) : List Char → Bool
  | [] => lstarts pat []
  | cs@(_ :: rest) => lstarts pat cs || hasSubL pat rest

/-- Python `pat in s` (substring containment). -/
def strHasSub (pat s : String) : Bool := hasSubL pat.toList s.toList

/-- Python `s.startswith(pat)`. -/
def pyStarts (pat s : String) : Bool := lstarts pat.toList s.toList

/-- Core of `re.split` on a one-character class repeated (`p+`): keeps the
empty boundary tokens Python produces when the string begins or ends with a
separator run. -/
def reSplitGo (p : Char → Bool) (acc : List Char) : List Char → List String
  | [] => [String.mk acc.reverse]
  | c :: rest =>
    if p c then
      match rest with
      | [] => [String.mk acc.reverse, ""]
      | d :: _ =>
        if p d then reSplitGo p acc rest
        else String.mk acc.reverse :: reSplitGo p [] rest
    else reSplitGo p (c :: acc) rest

/-- Python `re.split("<cls>+", s)` for a single-character class `p`. -/
def reSplit (p : Char → Bool) (s : String) : List String := reSplitGo p [] s.toList

/-- Python `str.split()` (whitespace split, no empty tokens). -/
def pyWords (s : String) : List String := (reSplit pyIsWs s).filter (fun t => t ≠ "")

/-- Does the string contain an ASCII digit (`re.search(r"\d", s)`)? -/
def containsDigit (s : String) : Bool := s.toList.any Char.isDigit

/-- Numeric value of a digit run. -/
def natOfDigits (ds : List Char) : Nat :=
  ds.foldl (fun n c => n * 10 + (c.toNat - 48)) 0

/-! The `Batteries` field operations on `Rat` are `@[irreducible]`, so the
embedding computes with the following kernel-reducible equivalents; the
bridge lemmas `qAdd_eq`, `qSub_eq`, `qDiv_eq`, `qMin2_eq`, `qMax2_eq` and
`qSum_eq` below identify them with the Mathlib operations. -/

/-- Executable addition on `ℚ`. -/
def qAdd (a b : ℚ) : ℚ := Rat.divInt (a.num * b.den + b.num * a.den) (a.den * b.den)

/-- Executable subtraction on `ℚ`. -/
def qSub (a b : ℚ) : ℚ := Rat.divInt (a.num * b.den - b.num * a.den) (a.den * b.den)

/-- Executable division on `ℚ` (`x / 0 = 0`, as in Mathlib). -/
def qDiv (a b : ℚ) : ℚ := Rat.divInt (a.num * b.den) (a.den * b.num)

/-- Executable binary minimum on `ℚ` (ties keep the first argument, like
the CPython builtin). -/
def qMin2 (a b : ℚ) : ℚ := if Rat.blt b a then b else a

/-- Executable binary maximum on `ℚ`. -/
def qMax2 (a b : ℚ) : ℚ := if Rat.blt a b then b else a

/-- Executable sum of a list of rationals. -/
def qSum (l : List ℚ) : ℚ := l.foldl qAdd 0

/-- `10 ^ n` on `Nat`. -/
def pow10 (n : Nat) : Nat := Nat.pow 10 n

/-- Exponent suffix of a Python float literal: empty, or `e`/`E` with an
optional sign and at least one digit, consuming the whole remainder. -/
def pyExpo : List Char → Option Int
  | [] => some 0
  | c :: r =>
    if c == 'e' || c == 'E' then
      let (es, r') : Int × List Char :=
        match r with
        | '+' :: r' => (1, r')
        | '-' :: r' => (-1, r')
        | r' => (1, r')
      let ds := r'.takeWhile Char.isDigit
      if ds.isEmpty || !(r'.dropWhile Char.isDigit).isEmpty then none
      else some (es * (natOfDigits ds : Int))
    else none

/-- Build the rational value `sg * m / d * 10 ^ e` of a float literal. -/
def floatVal (sg : Int) (m d : Nat) (e : Int) : ℚ :=
  match e with
  | Int.ofNat k => mkRat (sg * (m * pow10 k : Nat)) d
  | Int.negSucc k => mkRat (sg * m) (d * pow10 (k + 1))

/-- Python `float(s)` on decimal / scientific literals, landing in `ℚ`.
`inf`, `nan` and underscore separators are not modelled (see module header). -/
def pyFloat (s : String) : Option ℚ :=
  let cs := trimWsL s.toList
  let (sg, r) : Int × List Char :=
    match cs with
    | '+' :: r => (1, r)
    | '-' :: r => (-1, r)
    | r => (1, r)
  let ip := r.takeWhile Char.isDigit
  let r1 := r.dropWhile Char.isDigit
  match r1 with
  | '.' :: r2 =>
    let fp := r2.takeWhile Char.isDigit
    let r3 := r2.dropWhile Char.isDigit
    if ip.isEmpty && fp.isEmpty then none
    else (pyExpo r3).map (fun e =>
      floatVal sg (natOfDigits ip * pow10 fp.length + natOfDigits fp) (pow10 fp.length) e)
  | _ =>
    if ip.isEmpty then none
    else (pyExpo r1).map (fun e => floatVal sg (natOfDigits ip) 1 e)

/-- `RecipeParser._parse_quantity`: direct float parse, then simple fraction
`"a/b"`, then mixed number `"w a/b"`; division by zero (Python
`ZeroDivisionError`) yields `none`. -/
def parse_quantity (qty : String) : Option ℚ :=
  let q := pyStrip qty
  match pyFloat q with
  | some v => some v
  | none =>
    if strHasSub "/" q then
      match pyWords q with
      | [p0] =>
        (match splitSlash p0 with
         | [n, d] =>
           (match pyFloat n, pyFloat d with
            | some nv, some dv => if dv = 0 then none else some (qDiv nv dv)
            | _, _ => none)
         | _ => none)
      | [p0, p1] =>
        (match pyFloat p0 with
         | none => none
         | some w =>
           (match splitSlash p1 with
            | [n, d] =>
              (match pyFloat n, pyFloat d with
               | some nv, some dv => if dv = 0 then none else some (qAdd w (qDiv nv dv))
               | _, _ => none)
            | _ => none))
      | _ => none
    else none

/-! ## Compiled patterns of `RecipeParser.__init__` -/

/-- Character class (digit, whitespace, dash, slash, dot) of the first
capture group of `quantity_pattern`. -/
def isQChar (c : Char) : Bool :=
  c.isDigit || pyIsWs c || c == '-' || c == '/' || c == '.'

/-- Regex `.` (any character except a newline). -/
def isDotC (c : Char) : Bool := c != '\n'

/-- Backtracking candidates of a greedy `p*` at the head of `cs`: the rests
after consuming `k` class characters, longest consumption first. -/
def starSplits (p : Char → Bool) (cs : List Char) : List (List Char) :=
  let n := (cs.takeWhile p).length
  (List.range (n + 1)).map (fun j => cs.drop (n - j))

/-- Backtracking candidates of a greedy `p+`, longest first, with the
consumed prefix kept for a capture group. -/
def plusSplitsC (p : Char → Bool) (cs : List Char) : List (List Char × List Char) :=
  let n := (cs.takeWhile p).length
  (List.range n).map (fun j => (cs.take (n - j), cs.drop (n - j)))

/-- Backtracking candidates of a greedy `p+` without capture. -/
def plusSplits (p : Char → Bool) (cs : List Char) : List (List Char) :=
  (plusSplitsC p cs).map (·.2)

/-- Backtracking candidates of a lazy `p+?`, shortest first, with capture. -/
def lazySplitsC (p : Char → Bool) (cs : List Char) : List (List Char × List Char) :=
  let n := (cs.takeWhile p).length
  (List.range n).map (fun j => (cs.take (j + 1), cs.drop (j + 1)))

/-- Tail `(?:\s*\(.*\))?\s*$` of `quantity_pattern`: an optional
parenthesised annotation (tried first, as the group is greedy) and then only
whitespace up to the end. -/
def qpTail (cs : List Char) : Bool :=
  (match cs.dropWhile pyIsWs with
   | '(' :: rest =>
     (starSplits isDotC rest).any (fun r =>
       match r with
       | ')' :: tail => tail.all pyIsWs
       | _ => false)
   | _ => false)
  || cs.all pyIsWs

/-- `quantity_pattern.match`: anchored whitespace, a nonempty greedy run of
`isQChar`, optional whitespace, an optional greedy letter word, required
whitespace, a lazy nonempty remainder, an optional trailing parenthesised
annotation, trailing whitespace, end (`re.IGNORECASE`).  Returns the three
capture groups of the first match in the CPython backtracking order (earlier
atoms backtrack last, greedy longest-first, lazy shortest-first, optional
group tried before it is skipped). -/
def qpMatch (cs : List Char) : Option (String × Option String × String) :=
  (starSplits pyIsWs cs).findSome? fun r1 =>
    (plusSplitsC isQChar r1).findSome? fun g1 =>
      (starSplits pyIsWs g1.2).findSome? fun r3 =>
        (((plusSplitsC isAsciiAlpha r3).map (fun g => (some g.1, g.2)))
            ++ [((none : Option (List Char)), r3)]).findSome? fun g2 =>
          (plusSplits pyIsWs g2.2).findSome? fun r5 =>
            (lazySplitsC isDotC r5).findSome? fun g3 =>
              if qpTail g3.2 then
                some (String.mk g1.1, (g2.1).map String.mk, String.mk g3.1)
              else none

/-- `quantity_pattern.match` as a predicate on a string. -/
def quantityMatches (s : String) : Bool := (qpMatch s.toList).isSome

/-- `\d+[\).\:-]?\s+` — the tail of `step_prefix_pattern` after the optional
`step` keyword: digits, an optional single punctuation mark, then at least
one whitespace character (the match is a prefix match, nothing else is
required). -/
def spDigitsTail (cs : List Char) : Bool :=
  let ds := cs.takeWhile Char.isDigit
  if ds.isEmpty then false
  else
    match cs.dropWhile Char.isDigit with
    | [] => false
    | c :: r' =>
      ((c == ')' || c == '.' || c == ':' || c == '-') &&
        (match r' with
         | d :: _ => pyIsWs d
         | [] => false))
      || pyIsWs c

/-- `step_prefix_pattern.match`: `^\s*(step\s*)?\d+[\).\:-]?\s+`,
`re.IGNORECASE`. -/
def stepPrefixMatch (s : String) : Bool :=
  let cs := (pyLower s).toList.dropWhile pyIsWs
  (lstarts "step".toList cs && spDigitsTail ((cs.drop 4).dropWhile pyIsWs))
  || spDigitsTail cs

/-- `bullet_pattern.match`: `^\s*[\-\*•]\s+`. -/
def bulletMatch (s : String) : Bool :=
  match s.toList.dropWhile pyIsWs with
  | c :: r =>
    (c == '-' || c == '*' || c == '•') &&
      (match r with
       | d :: _ => pyIsWs d
       | [] => false)
  | [] => false

/-- `re.sub(r"^[\d\.\-\*•\s]+", "", text)`: drop the leading run of digits,
dots, dashes, stars, bullets and whitespace. -/
def stripLeadingJunk (s : String) : String :=
  String.mk (s.toList.dropWhile
    (fun c => c.isDigit || c == '.' || c == '-' || c == '*' || c == '•' || pyIsWs c))

/-- Digits group `(\d+)` of `servings_pattern` at the head of `cs`. -/
def srvDigits (cs : List Char) : Option Nat :=
  let ds := cs.takeWhile Char.isDigit
  if ds.isEmpty then none else some (natOfDigits ds)

/-- `s?\s*(?:of\s*)?(\d+)` — tail of `servings_pattern` after a keyword. -/
def srvAfterKw (cs : List Char) : Option Nat :=
  let attempt : List Char → Option Nat := fun cs2 =>
    let cs3 := cs2.dropWhile pyIsWs
    match (if lstarts "of".toList cs3 then srvDigits ((cs3.drop 2).dropWhile pyIsWs) else none) with
    | some n => some n
    | none => srvDigits cs3
  match cs with
  | 's' :: r =>
    (match attempt r with
     | some n => some n
     | none => attempt cs)
  | _ => attempt cs

/-- One position of the `servings_pattern` search: try the alternatives
`serve`, `serving`, `yield` (mutually exclusive prefixes). -/
def srvAt (cs : List Char) : Option Nat :=
  if lstarts "serve".toList cs then srvAfterKw (cs.drop 5)
  else if lstarts "serving".toList cs then srvAfterKw (cs.drop 7)
  else if lstarts "yield".toList cs then srvAfterKw (cs.drop 5)
  else none

/-- `servings_pattern.search`:
`(?:serve|serving|yield)s?\s*(?:of\s*)?(\d+)`, `re.IGNORECASE`; returns
`int(match.group(1))` of the leftmost match. -/
def servingsSearchL : List Char → Option Nat
  | [] => none
  | cs@(_ :: rest) =>
    match srvAt cs with
    | some n => some n
    | none => servingsSearchL rest

/-- `servings_pattern.search` on a string. -/
def servingsSearch (s : String) : Option Nat := servingsSearchL (pyLower s).toList

/-! ## Data model (`parser.py` dataclasses and result dicts) -/

/-- Axis-aligned box `[x, y, w, h]`; coordinates live in `ℚ`. -/
structure Bbox where
  x : ℚ
  y : ℚ
  w : ℚ
  h : ℚ
deriving DecidableEq

/-- `OCRLineData`: OCR line with text, bbox, and confidence. -/
structure OCRLineData where
  page : Nat
  text : String
  bbox : Bbox
  confidence : ℚ
deriving DecidableEq

/-- Default line used for (unreachable) out-of-bounds list access. -/
def dfltLine : OCRLineData := ⟨0, "", ⟨0, 0, 0, 0⟩, 0⟩

/-- The ingredient dict built by `_parse_ingredient_line` before the caller
adds `original_text`. -/
structure IngredientCore where
  quantity : Option ℚ
  unit : Option String
  optional : Bool
deriving DecidableEq

/-- A parsed ingredient as stored in `recipe["ingredients"]`. -/
structure Ingredient where
  quantity : Option ℚ
  unit : Option String
  optional : Bool
  original_text : String
deriving DecidableEq

/-- A provenance span dict as built by the parser extractors. -/
structure PSpan where
  field_path : String
  asset_id : String
  page : Nat
  bbox : Bbox
  ocr_confidence : ℚ
  extracted_text : String
deriving DecidableEq

/-- A field-status dict. -/
structure FieldStatus where
  field_path : String
  status : String
  notes : Option String
deriving DecidableEq

/-- A cooking step as stored in `recipe["steps"]`. -/
structure Step where
  text : String
deriving DecidableEq

/-- The `times` sub-dict (never populated by this parser). -/
structure Times where
  prep_min : Option ℚ
  cook_min : Option ℚ
  total_min : Option ℚ
deriving DecidableEq

/-- The recipe draft dict. -/
structure Recipe where
  title : Option String
  servings : Option Nat
  times : Times
  ingredients : List Ingredient
  steps : List Step
  tags : List String
deriving DecidableEq

/-- The full return value of `RecipeParser.parse`. -/
structure ParseResult where
  recipe : Recipe
  spans : List PSpan
  field_statuses : List FieldStatus
deriving DecidableEq

/-- One `(ingredient, span, field_status)` tuple of `_extract_ingredients`. -/
structure IngEntry where
  item : Ingredient
  span : PSpan
  status : FieldStatus
deriving DecidableEq

/-- One `(step, span, field_status)` tuple of `_extract_steps`. -/
structure StepEntry where
  item : Step
  span : PSpan
  status : FieldStatus
deriving DecidableEq

/-! ## Keyword vocabularies (class attributes of `RecipeParser`) -/

def TITLE_INDICATORS : List String := ["recipe", "title", "name"]

def INGREDIENT_INDICATORS : List String :=
  ["ingredient", "ingredients", "what", "you", "need", "component", "supplies"]

def STEPS_INDICATORS : List String :=
  ["instruction", "instructions", "method", "preparation", "procedure",
   "direction", "directions", "steps", "step"]

def TIME_INDICATORS : List String :=
  ["prep", "preparation", "cook", "cooking", "bake", "baking", "total", "time",
   "minutes", "mins", "hours", "hrs"]

def SERVINGS_INDICATORS : List String :=
  ["serve", "serving", "servings", "yield", "portion", "people"]

def STEP_VERBS : List String :=
  ["add", "bake", "beat", "bring", "combine", "cook", "cover", "drain", "fold",
   "heat", "mix", "place", "pour", "preheat", "reduce", "remove", "return",
   "roll", "season", "serve", "simmer", "stir", "whisk"]

def UNIT_TOKENS : List String :=
  ["tsp", "tbsp", "teaspoon", "teaspoons", "tablespoon", "tablespoons", "cup",
   "cups", "g", "kg", "gram", "grams", "mg", "ml", "l", "oz", "lb", "lbs",
   "pound", "pounds", "pinch", "clove", "cloves", "can", "cans", "package",
   "packages", "slice", "slices", "bunch", "bunches", "sprig", "sprigs"]

def NOISE_PHRASES : List String :=
  ["nutrition", "calories", "kcal", "protein", "carbohydrate", "carb", "fat",
   "fiber", "fibre", "sugar", "sodium", "dietary", "healthy", "nut-free",
   "nut free", "pregnancy", "exercise", "recovery", "refuel", "refueling",
   "per serving", "print", "share", "save", "shopping list", "shop", "http",
   "www.", "copyright", "©"]

/-- Union of the three section-keyword sets used by `_looks_like_header`. -/
def headerIndicators : List String :=
  INGREDIENT_INDICATORS ++ STEPS_INDICATORS ++ TITLE_INDICATORS

/-! ## Line classifiers -/

/-- `RecipeParser._looks_like_header`. -/
def looks_like_header (text : String) : Bool :=
  let lt := rstripColons (pyStrip (pyLower text))
  if 50 < lt.length then false
  else
    let tokens := reSplit pyIsWs lt
    if tokens.isEmpty then false
    else
      headerIndicators.contains lt
      || (headerIndicators.contains (tokens.headD "") && decide (tokens.length ≤ 3))
      || headerIndicators.any (fun ind => strHasSub ind lt)

/-- `RecipeParser._is_noise_line`. -/
def is_noise_line (text : String) : Bool :=
  let lt := pyLower text
  NOISE_PHRASES.any (fun phrase => strHasSub phrase lt)
  || (decide ((pyWords lt).length ≤ 2) && ["cook", "prep", "serve", "dietary"].contains lt)

/-- `RecipeParser._looks_like_ingredient`. -/
def looks_like_ingredient (text : String) : Bool :=
  let lt := pyLower text
  if stepPrefixMatch lt then false
  else if bulletMatch lt then true
  else if quantityMatches lt then true
  else (reSplit (fun c => !isAsciiAlpha c) lt).any (fun tok => UNIT_TOKENS.contains tok)

/-- `RecipeParser._is_step_candidate`. -/
def is_step_candidate (text : String) : Bool :=
  let lt := pyStrip (pyLower text)
  stepPrefixMatch lt
  || bulletMatch lt
  || STEP_VERBS.contains ((reSplit (fun c => !isAsciiAlpha c) lt).headD "")

/-! ## Field extractors -/

/-- `RecipeParser._parse_ingredient_line`: strip, drop leading
bullets/numbers, set `optional` from a case-insensitive substring test, then
try to extract quantity and unit via `quantity_pattern` and
`_parse_quantity` (a falsy quantity — `None` or `0.0` — leaves both quantity
and unit unset). -/
def parse_ingredient_line (text : String) : Option IngredientCore :=
  let t := pyStrip text
  if t = "" then none
  else
    let t2 := pyStrip (stripLeadingJunk t)
    let base : IngredientCore := ⟨none, none, strHasSub "optional" (pyLower t2)⟩
    match qpMatch t2.toList with
    | none => some base
    | some (qty, unitWord, _) =>
      match parse_quantity (pyStrip qty) with
      | none => some base
      | some v =>
        if v = 0 then some base
        else some { base with quantity := some v, unit := unitWord.map pyLower }

/-- Index list of the lines satisfying `p`, starting at index `i`
(the section-header scan of `_detect_sections`). -/
def idxs_from (p : OCRLineData → Bool) (i : Nat) : List OCRLineData → List Nat
  | [] => []
  | l :: rs => if p l then i :: idxs_from p (i + 1) rs else idxs_from p (i + 1) rs

/-- Header test of `_detect_sections` for the ingredients section. -/
def is_ing_header_line (l : OCRLineData) : Bool :=
  let lt := pyStrip (pyLower l.text)
  looks_like_header lt && INGREDIENT_INDICATORS.any (fun ind => strHasSub ind lt)

/-- Header test of `_detect_sections` for the steps section. -/
def is_steps_header_line (l : OCRLineData) : Bool :=
  let lt := pyStrip (pyLower l.text)
  looks_like_header lt && STEPS_INDICATORS.any (fun ind => strHasSub ind lt)

/-- Header test of `_detect_sections` for the title. -/
def is_title_header_line (l : OCRLineData) : Bool :=
  let lt := pyStrip (pyLower l.text)
  looks_like_header lt && TITLE_INDICATORS.any (fun ind => strHasSub ind lt)

/-- Section indices detected by `_detect_sections`. -/
structure Sections where
  title_indices : List Nat
  ingredients_indices : List Nat
  steps_indices : List Nat
deriving DecidableEq

/-- `RecipeParser._detect_sections`; when no explicit title header is found
and the input is nonempty, index 0 is used as the title index. -/
def detect_sections (lines : List OCRLineData) : Sections :=
  let t := idxs_from is_title_header_line 0 lines
  { title_indices := if t.isEmpty && !lines.isEmpty then [0] else t
    ingredients_indices := idxs_from is_ing_header_line 0 lines
    steps_indices := idxs_from is_steps_header_line 0 lines }

/-- `RecipeParser._extract_title`. -/
def extract_title (lines : List OCRLineData) (titleIdxs : List Nat)
    (asset : String) : Option (String × PSpan × FieldStatus) :=
  match lines with
  | [] => none
  | _ =>
    let line :=
      match titleIdxs with
      | i :: _ =>
        if i + 1 < lines.length then lines.getD (i + 1) dfltLine
        else lines.getD i dfltLine
      | [] =>
        match (lines.take 5).find? (fun c =>
            decide (3 < (pyStrip c.text).length) && decide (2 ≤ (pyWords c.text).length)) with
        | some c => c
        | none => lines.getD 0 dfltLine
    let title := pyStrip line.text
    if title = "" || is_noise_line title then none
    else
      let chosen :=
        if decide (120 < title.length)
            || (strHasSub ". " title && decide (8 < (pyWords title).length)) then
          match (lines.take 8).find? (fun c =>
              let ct := pyStrip c.text
              !(ct == "") && !is_noise_line ct
                && decide ((pyWords ct).length ≤ 8) && decide (ct.length ≤ 80)) with
          | some c => (c, pyStrip c.text)
          | none => (line, title)
        else (line, title)
      some (chosen.2,
        ⟨"title", asset, chosen.1.page, chosen.1.bbox, chosen.1.confidence, chosen.2⟩,
        ⟨"title", "extracted", none⟩)

/-- Loop body of `_extract_ingredients` over the lines of the resolved
ingredient range; `count` is the number of ingredients accepted so far
(used in the span and status field paths). -/
def ing_loop (asset : String) (relax : Bool) : Nat → List OCRLineData → List IngEntry
  | _, [] => []
  | count, l :: rs =>
    let t := pyStrip l.text
    if t = "" then ing_loop asset relax count rs
    else if looks_like_header t then ing_loop asset relax count rs
    else if is_noise_line t then ing_loop asset relax count rs
    else if pyStarts "for " (pyLower t) || pyStarts "for the " (pyLower t) then
      ing_loop asset relax count rs
    else if endsColon t then ing_loop asset relax count rs
    else if TIME_INDICATORS.any (fun ind => strHasSub ind (pyLower t))
        && containsDigit (pyLower t) then ing_loop asset relax count rs
    else if !relax && is_step_candidate t then ing_loop asset relax count rs
    else if !relax && !looks_like_ingredient t then ing_loop asset relax count rs
    else
      match parse_ingredient_line t with
      | none => ing_loop asset relax count rs
      | some core =>
        { item := ⟨core.quantity, core.unit, core.optional, t⟩
          span := ⟨"ingredients[" ++ Nat.repr count ++ "].original_text",
                   asset, l.page, l.bbox, l.confidence, t⟩
          status := ⟨"ingredients[" ++ Nat.repr count ++ "].original_text",
                     "extracted", none⟩ } :: ing_loop asset relax (count + 1) rs

/-- `RecipeParser._extract_ingredients`. -/
def extract_ingredients (lines : List OCRLineData) (range : Option (Nat × Nat))
    (asset : String) (relax : Bool) : List IngEntry :=
  match range with
  | none => []
  | some (s, e) => ing_loop asset relax 0 ((lines.drop s).take (e - s))

/-- Heuristic start-of-ingredients scan of `_find_ingredient_range` (used
when no explicit ingredients header was detected). -/
def find_start (i : Nat) : List OCRLineData → Option Nat
  | [] => none
  | l :: rs =>
    let t := pyStrip l.text
    if t = "" || looks_like_header t || is_noise_line t then find_start (i + 1) rs
    else if looks_like_ingredient t then some i
    else find_start (i + 1) rs

/-- Gap-tolerant end-of-ingredients scan of `_find_ingredient_range`
(`max_gap = 2`). -/
def range_loop : Nat → Nat → Nat → List OCRLineData → Nat
  | _, e, _, [] => e
  | idx, e, gap, l :: rs =>
    let t := pyStrip l.text
    if t = "" then
      (if 2 < gap + 1 then e else range_loop (idx + 1) e (gap + 1) rs)
    else if looks_like_header t || is_step_candidate t then e
    else if is_noise_line t then
      (if 2 < gap + 1 then e else range_loop (idx + 1) e (gap + 1) rs)
    else if looks_like_ingredient t then range_loop (idx + 1) (idx + 1) 0 rs
    else (if 2 < gap + 1 then e else range_loop (idx + 1) e (gap + 1) rs)

/-- `RecipeParser._find_ingredient_range`. -/
def find_ingredient_range (lines : List OCRLineData)
    (ingIdxs stepIdxs : List Nat) : Option (Nat × Nat) :=
  match ingIdxs with
  | i :: _ =>
    some (i + 1, match stepIdxs with
                 | j :: _ => j
                 | [] => lines.length)
  | [] =>
    match find_start 0 lines with
    | none => none
    | some s => some (s, range_loop s s 0 (lines.drop s))

/-- Scan of `_find_steps_start` for the first step-like line at or after
index `i`. -/
def steps_scan (i : Nat) : List OCRLineData → Option Nat
  | [] => none
  | l :: rs =>
    let t := pyStrip l.text
    if t = "" || looks_like_header t || is_noise_line t then steps_scan (i + 1) rs
    else if is_step_candidate t then some i
    else steps_scan (i + 1) rs

/-- `RecipeParser._find_steps_start`. -/
def find_steps_start (lines : List OCRLineData) (stepIdxs : List Nat)
    (range : Option (Nat × Nat)) : Option Nat :=
  match stepIdxs with
  | j :: _ => some (j + 1)
  | [] =>
    let s := match range with
             | some r => r.2
             | none => 0
    steps_scan s (lines.drop s)

/-- Replace the element at index `k` (if any) by its image under `f`. -/
def modAt (k : Nat) (f : α → α) : List α → List α
  | [] => []
  | a :: as =>
    match k with
    | 0 => f a :: as
    | k' + 1 => a :: modAt k' f as

/-- Continuation merge of `_extract_steps`: append the line text
(space-joined) to both the step text and the span `extracted_text` of entry
`k`; the span bbox, page and confidence are left untouched. -/
def merge_entry_at (k : Nat) (t : String) (acc : List StepEntry) : List StepEntry :=
  modAt k (fun e =>
    { e with
      item := ⟨e.item.text ++ " " ++ t⟩
      span := { e.span with extracted_text := e.span.extracted_text ++ " " ++ t } }) acc

/-- Loop of `_extract_steps` with its two pieces of state: the accumulated
entries and the index of the current step (if any). -/
def steps_loop (asset : String) : List OCRLineData → List StepEntry → Option Nat → List StepEntry
  | [], acc, _ => acc
  | l :: rs, acc, cur =>
    let t := pyStrip l.text
    if t = "" then steps_loop asset rs acc cur
    else if looks_like_header t then
      (match cur with
       | none => steps_loop asset rs acc cur
       | some _ => acc)
    else if is_noise_line t then steps_loop asset rs acc cur
    else if !is_step_candidate t then
      (match cur with
       | some k => steps_loop asset rs (merge_entry_at k t acc) cur
       | none => steps_loop asset rs acc cur)
    else
      steps_loop asset rs
        (acc ++ [{ item := ⟨t⟩
                   span := ⟨"steps[" ++ Nat.repr acc.length ++ "].text",
                            asset, l.page, l.bbox, l.confidence, t⟩
                   status := ⟨"steps[" ++ Nat.repr acc.length ++ "].text",
                              "extracted", none⟩ }])
        (some acc.length)

/-- `RecipeParser._extract_steps`. -/
def extract_steps (lines : List OCRLineData) (start : Option Nat)
    (asset : String) : List StepEntry :=
  match start with
  | none => []
  | some s => steps_loop asset (lines.drop s) [] none

/-- `RecipeParser._extract_servings`. -/
def extract_servings (lines : List OCRLineData) (asset : String) :
    Option (Nat × PSpan × FieldStatus) :=
  match lines with
  | [] => none
  | l :: rs =>
    let t := pyLower l.text
    if SERVINGS_INDICATORS.any (fun ind => strHasSub ind t) then
      match servingsSearchL t.toList with
      | some n =>
        some (n, ⟨"servings", asset, l.page, l.bbox, l.confidence, pyStrip l.text⟩,
              ⟨"servings", "extracted", none⟩)
      | none => extract_servings rs asset
    else extract_servings rs asset

/-! ## Orchestrator -/

/-- The ingredient entries of a parse: the strict pass, retried with
`relax_filters=True` on the same range when the strict pass produced nothing
but a range was found (the retry result is kept only when nonempty). -/
def parse_ingredient_entries (lines : List OCRLineData)
    (range : Option (Nat × Nat)) (asset : String) : List IngEntry :=
  let strict := extract_ingredients lines range asset false
  if strict.isEmpty && range.isSome then
    let fb := extract_ingredients lines range asset true
    if fb.isEmpty then strict else fb
  else strict

/-- Result of `parse` on the empty input. -/
def emptyParseResult : ParseResult :=
  { recipe := ⟨none, none, ⟨none, none, none⟩, [], [], []⟩
    spans := []
    field_statuses := [] }

/-- `RecipeParser.parse`. -/
def parse (lines : List OCRLineData) (asset : String) : ParseResult :=
  if lines.isEmpty then emptyParseResult
  else
    let sections := detect_sections lines
    let titleRes := extract_title lines sections.title_indices asset
    let range := find_ingredient_range lines sections.ingredients_indices sections.steps_indices
    let ingRes := parse_ingredient_entries lines range asset
    let stepsStart := find_steps_start lines sections.steps_indices range
    let stepRes := extract_steps lines stepsStart asset
    let servRes := extract_servings lines asset
    { recipe :=
        { title := titleRes.map (fun r => r.1)
          servings := servRes.map (fun r => r.1)
          times := ⟨none, none, none⟩
          ingredients := ingRes.map (fun r => r.item)
          steps := stepRes.map (fun r => r.item)
          tags := [] }
      spans :=
        (match titleRes with
         | some r => [r.2.1]
         | none => [])
        ++ ingRes.map (fun r => r.span)
        ++ stepRes.map (fun r => r.span)
        ++ (match servRes with
            | some r => [r.2.1]
            | none => [])
      field_statuses :=
        (match titleRes with
         | some r => [r.2.2]
         | none => [⟨"title", "missing", some "Could not detect title in OCR text"⟩])
        ++ ingRes.map (fun r => r.status)
        ++ (if ingRes.isEmpty then
              [⟨"ingredients", "missing", some "Could not detect ingredients section"⟩]
            else [])
        ++ stepRes.map (fun r => r.status)
        ++ (if stepRes.isEmpty then
              [⟨"steps", "missing", some "Could not detect steps section"⟩]
            else [])
        ++ (match servRes with
            | some r => [r.2.2]
            | none => [⟨"servings", "missing", some "Servings not found in OCR text"⟩]) }

/-! ## Evidence builder (`apps/worker/jobs.py`) -/

/-- An OCR line row as looked up by the evidence builder. -/
structure WLine where
  page : Nat
  bbox : Bbox
  confidence : ℚ
deriving DecidableEq

/-- A span dict as built by `_build_span_from_evidence`. -/
structure WSpan where
  field_path : String
  asset_id : String
  page : Nat
  bbox : Bbox
  extracted_text : String
  confidence : ℚ
  source_method : String
  evidence_ids : List String
deriving DecidableEq

/-- Minimum of a list of rationals (Python `min` on a nonempty iterable;
`0` on the empty list, which the callers never pass). -/
def qListMin : List ℚ → ℚ
  | [] => 0
  | a :: as => as.foldl qMin2 a

/-- Maximum of a list of rationals. -/
def qListMax : List ℚ → ℚ
  | [] => 0
  | a :: as => as.foldl qMax2 a

/-- `_union_bboxes`: `[0,0,0,0]` on no boxes, else the axis-aligned union in
`[x, y, w, h]` form. -/
def union_bboxes (bs : List Bbox) : Bbox :=
  match bs with
  | [] => ⟨0, 0, 0, 0⟩
  | _ :: _ =>
    let xMin := qListMin (bs.map (fun b => b.x))
    let yMin := qListMin (bs.map (fun b => b.y))
    let xMax := qListMax (bs.map (fun b => qAdd b.x b.w))
    let yMax := qListMax (bs.map (fun b => qAdd b.y b.h))
    ⟨xMin, yMin, qSub xMax xMin, qSub yMax yMin⟩

/-- Dict lookup `ocr_line_map[eid]` over an association list. -/
def lineLookup (m : List (String × WLine)) (eid : String) : Option WLine :=
  (m.find? (fun p => p.1 == eid)).map (fun p => p.2)

/-- `[ocr_line_map[eid] for eid in evidence_ids if eid in ocr_line_map]`. -/
def resolvedLines (ids : List String) (m : List (String × WLine)) : List WLine :=
  ids.filterMap (lineLookup m)

/-- Default line for the (guarded) head access of the resolved list. -/
def dfltWLine : WLine := ⟨0, ⟨0, 0, 0, 0⟩, 0⟩

/-- `_build_span_from_evidence` (with its default
`source_method="vision-api"`; the `evidence_ids or []` None-guard and
`str(eid)` coercions are identities under the `List String` model). -/
def build_span_from_evidence (field_path extracted_text : String)
    (ids : List String) (m : List (String × WLine)) (asset_id : String) :
    Option WSpan :=
  let ls := resolvedLines ids m
  if ls.isEmpty then none
  else
    some
      { field_path := field_path
        asset_id := asset_id
        page := (ls.headD dfltWLine).page
        bbox := union_bboxes (ls.map (fun l => l.bbox))
        extracted_text := extracted_text
        confidence := qDiv (qSum (ls.map (fun l => l.confidence))) (mkRat (Int.ofNat ls.length) 1)
        source_method := "vision-api"
        evidence_ids := ids }

/-! ## Shared concrete inputs and defaults for the theorems -/

/-- A one-page OCR line with a zero bbox and confidence 1. -/
def mkLn (t : String) : OCRLineData := ⟨0, t, ⟨0, 0, 0, 0⟩, 1⟩

/-- Default entry for guarded positional access in step lists. -/
def dfltStepEntry : StepEntry :=
  ⟨⟨""⟩, ⟨"", "", 0, ⟨0, 0, 0, 0⟩, 0, ""⟩, ⟨"", "", none⟩⟩

/-- First line of the steps-range example of the spec. -/
def stepLn1 : OCRLineData := ⟨0, "1. Boil water", ⟨0, 100, 200, 20⟩, 1⟩

/-- Second (continuation) line of the steps-range example of the spec. -/
def stepLn2 : OCRLineData := ⟨0, "and add pasta.", ⟨0, 130, 210, 20⟩, 1⟩

/-- The step entry created from `stepLn1`. -/
def stepEntry1 : StepEntry :=
  ⟨⟨"1. Boil water"⟩,
   ⟨"steps[0].text", "a", 0, ⟨0, 100, 200, 20⟩, 1, "1. Boil water"⟩,
   ⟨"steps[0].text", "extracted", none⟩⟩

/-- Concrete evidence-id list for the evidence-builder example (the last id
is unresolved and silently dropped). -/
def wids : List String := ["id1", "id2", "missing"]

/-- Concrete OCR-line lookup table for the evidence-builder example. -/
def wmap : List (String × WLine) :=
  [("id1", ⟨0, ⟨0, 0, 10, 10⟩, mkRat 1 2⟩), ("id2", ⟨0, ⟨5, 5, 10, 10⟩, 1⟩)]

/-- The span built from `wids` over `wmap`: union bbox and mean confidence. -/
def wspan : WSpan :=
  ⟨"title", "a", 0, ⟨0, 0, 15, 15⟩, "Pasta", mkRat 3 4, "vision-api",
   ["id1", "id2", "missing"]⟩

/-! ## Claims -/

/-- Claim C1 (counterexample): on the empty input the short-circuit result
carries an empty `field_statuses` list, not the four `missing` entries
(title/ingredients/steps/servings) the claim asserts. -/
theorem c1_empty_input_counterexample :
    (parse [] "asset-1").field_statuses = [] := rfl

/-- Claim C1 (amended): for the empty input, `parse` short-circuits to a
result with `title = none`, no servings, no times, `ingredients = []`,
`steps = []`, no tags, no spans, and an *empty* `field_statuses` list. -/
theorem c1_empty_input_amended (asset : String) :
    parse [] asset =
      ⟨⟨none, none, ⟨none, none, none⟩, [], [], []⟩, [], []⟩ := rfl

/-- Claim C2 (code bug): an ingredient line beginning with a numeric
quantity token loses that quantity: the leading-bullet strip of
`_parse_ingredient_line` removes the digits before `quantity_pattern` runs,
so `"400g spaghetti pasta"` — which the strict ingredient filter accepts —
yields `quantity = none` and `unit = none` instead of the 400 / `"g"`
asserted by the claim and by the repository test
`test_parse_ingredients_with_quantities`. -/
theorem c2_quantity_never_extracted :
    parse_ingredient_line "400g spaghetti pasta" =
      some ⟨none, none, false⟩
    ∧ (parse [mkLn "Ingredients", mkLn "400g spaghetti pasta"] "a").recipe.ingredients =
      [⟨none, none, false, "400g spaghetti pasta"⟩] := by
  exact ⟨by decide, by decide⟩

/-- Claim C3: `_parse_quantity` applies, in order, a direct float parse,
then simple fractions (null on a zero denominator), then mixed numbers
(same guard); `"1/2"` gives `1/2`, `"2 1/3"` gives `7/3`, `"1/0"` gives
null, and strings fitting none of the three formats give null. -/
theorem c3_parse_quantity_rules :
    parse_quantity "1/2" = some (1 / 2 : ℚ)
    ∧ parse_quantity "2 1/3" = some (7 / 3 : ℚ)
    ∧ parse_quantity "1/0" = none
    ∧ parse_quantity "2 1/0" = none
    ∧ parse_quantity "three" = none
    ∧ parse_quantity "1 2 3" = none
    ∧ parse_quantity "1/2/3" = none
    ∧ (∀ (s : String) (v : ℚ), pyFloat (pyStrip s) = some v → parse_quantity s = some v) := by
  refine ⟨?_, ?_, by decide, by decide, by decide, by decide, by decide, ?_⟩
  · rw [show parse_quantity "1/2" = some (mkRat 1 2) from by decide, Rat.mkRat_eq_div]
    norm_num
  · rw [show parse_quantity "2 1/3" = some (mkRat 7 3) from by decide, Rat.mkRat_eq_div]
    norm_num
  · intro s v h
    simp [parse_quantity, h]

/-- Witness for C3: the float-first rule applied at the concrete input
`" 2.5 "`. -/
theorem c3_parse_quantity_rules_witness :
    pyFloat (pyStrip " 2.5 ") = some (5 / 2 : ℚ)
    ∧ parse_quantity " 2.5 " = some (5 / 2 : ℚ) :=
  have h : pyFloat (pyStrip " 2.5 ") = some (5 / 2 : ℚ) := by
    rw [show pyFloat (pyStrip " 2.5 ") = some (mkRat 5 2) from by decide, Rat.mkRat_eq_div]
    norm_num
  ⟨h, c3_parse_quantity_rules.2.2.2.2.2.2.2 " 2.5 " (5 / 2) h⟩

/-- Claim C4 (counterexample): the relaxed retry also disables the
step-start filter, not only the ingredient-likeness filter: the line
`"Mix the flour"` is a step candidate, yet the retry accepts it as an
ingredient, which the claim (step filter still active) forbids. -/
theorem c4_relaxed_retry_counterexample :
    (parse [mkLn "Ingredients", mkLn "Mix the flour"] "a").recipe.ingredients =
      [⟨none, none, false, "Mix the flour"⟩]
    ∧ is_step_candidate "Mix the flour" = true := by
  exact ⟨by decide, by decide⟩

/-- Claim C4 (amended): when the strict pass yields zero ingredients but a
non-empty range was found, the parser retries the same range with both the
ingredient-likeness and the step-start filters disabled (header, noise and
the other line filters remain); for `["Ingredients",
"salt and pepper to taste"]` the detected range is `(1, 2)`, the strict
pass yields nothing, and the retry yields exactly one Ingredient with
`original_text = "salt and pepper to taste"`. -/
theorem c4_relaxed_retry_amended :
    find_ingredient_range [mkLn "Ingredients", mkLn "salt and pepper to taste"]
        (detect_sections [mkLn "Ingredients", mkLn "salt and pepper to taste"]).ingredients_indices
        (detect_sections [mkLn "Ingredients", mkLn "salt and pepper to taste"]).steps_indices
      = some (1, 2)
    ∧ extract_ingredients [mkLn "Ingredients", mkLn "salt and pepper to taste"]
        (some (1, 2)) "a" false = []
    ∧ (extract_ingredients [mkLn "Ingredients", mkLn "salt and pepper to taste"]
        (some (1, 2)) "a" true).map (fun e => e.item) =
        [⟨none, none, false, "salt and pepper to taste"⟩]
    ∧ (parse [mkLn "Ingredients", mkLn "salt and pepper to taste"] "a").recipe.ingredients =
        [⟨none, none, false, "salt and pepper to taste"⟩] := by
  exact ⟨by decide, by decide, by decide, by decide⟩

/-- `reSplit` never produces an empty list (as with `re.split` in Python). -/
theorem reSplitGo_ne_nil (p : Char → Bool) :
    ∀ (cs : List Char) (acc : List Char), reSplitGo p acc cs ≠ []
  | [], acc => by simp [reSplitGo]
  | c :: rest, acc => by
    simp only [reSplitGo]
    split
    · match rest, reSplitGo_ne_nil p rest with
      | [], _ => simp
      | d :: rs, ih => by_cases hd : p d <;> simp [hd, ih]
    · exact reSplitGo_ne_nil p rest _

/-- Claim C5 (counterexample): a line of four tokens that equals no section
keyword is still classified as a header, because any keyword occurring as a
substring anywhere in the (≤ 50 character) line suffices — here `"step"`
inside `"now mix the step"`. -/
theorem c5_header_test_counterexample :
    looks_like_header "now mix the step" = true
    ∧ (reSplit pyIsWs (rstripColons (pyStrip (pyLower "now mix the step")))).length = 4
    ∧ headerIndicators.contains "now mix the step" = false := by
  exact ⟨by decide, by decide, by decide⟩

/-- Claim C5 (amended): after lower-casing, stripping and removing trailing
colons, a line is classified as a header iff it is at most 50 characters
long and (it exactly equals a section keyword, or its first token is a
keyword and it has at most 3 tokens, or some keyword occurs as a substring
anywhere in it — this last rule has no token bound). -/
theorem c5_header_test_amended (s : String) :
    looks_like_header s = true ↔
      (let t := rstripColons (pyStrip (pyLower s))
       t.length ≤ 50 ∧
         (t ∈ headerIndicators
          ∨ ((reSplit pyIsWs t).headD "" ∈ headerIndicators ∧ (reSplit pyIsWs t).length ≤ 3)
          ∨ ∃ k ∈ headerIndicators, strHasSub k t = true)) := by
  simp only [looks_like_header]
  split
  · next h1 =>
    simp only [Bool.false_eq_true, false_iff, not_and_or]
    exact Or.inl (by omega)
  · next h1 =>
    split
    · next h2 =>
      exact absurd (List.isEmpty_iff.mp h2) (reSplitGo_ne_nil pyIsWs _ _)
    · next h2 =>
      have hlen : (rstripColons (pyStrip (pyLower s))).length ≤ 50 := by omega
      refine Iff.trans ?_ (and_iff_right hlen).symm
      refine Iff.trans ?_ or_assoc
      simp only [Bool.or_eq_true, Bool.and_eq_true, decide_eq_true_eq, List.any_eq_true,
        List.contains, List.elem_iff]

/-- Witness for C5: the amended characterization applied at the concrete
header line `"Ingredients:"`. -/
theorem c5_header_test_amended_witness :
    looks_like_header "Ingredients:" = true :=
  (c5_header_test_amended "Ingredients:").mpr
    ⟨by decide, Or.inl (by decide)⟩

/-- Length is preserved by `modAt`. -/
theorem modAt_length (f : α → α) : ∀ (l : List α) (k : Nat), (modAt k f l).length = l.length
  | [], _ => by simp [modAt]
  | _ :: as, 0 => by simp [modAt]
  | a :: as, k + 1 => by simp [modAt, modAt_length f as k]

/-- In-bounds `modAt` applies `f` at the modified index. -/
theorem getD_modAt_self (f : α → α) (d : α) :
    ∀ (l : List α) (k : Nat), k < l.length → (modAt k f l).getD k d = f (l.getD k d)
  | [], k, h => by simp at h
  | a :: as, 0, _ => by simp [modAt]
  | a :: as, k + 1, h => by
    simp only [modAt, List.getD_cons_succ]
    exact getD_modAt_self f d as k (by simpa using h)

/-- `modAt` leaves every other index unchanged. -/
theorem getD_modAt_ne (f : α → α) (d : α) :
    ∀ (l : List α) (k j : Nat), j ≠ k → (modAt k f l).getD j d = l.getD j d
  | [], _, _, _ => by simp [modAt]
  | a :: as, 0, 0, h => absurd rfl h
  | a :: as, 0, j + 1, _ => by simp [modAt]
  | a :: as, k + 1, 0, _ => by simp [modAt]
  | a :: as, k + 1, j + 1, h => by
    simp only [modAt, List.getD_cons_succ]
    exact getD_modAt_ne f d as k j (by omega)

/-- Claim C7: in steps extraction, a non-empty, non-header, non-noise line
that fails the step-start test while a current step exists is merged as a
continuation — the loop continues with the line appended (space-joined) to
the current step text and span `extracted_text`; the step count is
unchanged, the span bbox, page, confidence and field path are not touched
(the bbox is not re-unioned), and all other entries are unchanged. -/
theorem c7_step_continuation_merge (asset : String) (l : OCRLineData)
    (rs : List OCRLineData) (acc : List StepEntry) (k : Nat)
    (hne : pyStrip l.text ≠ "")
    (hhd : looks_like_header (pyStrip l.text) = false)
    (hno : is_noise_line (pyStrip l.text) = false)
    (hst : is_step_candidate (pyStrip l.text) = false)
    (hk : k < acc.length) :
    steps_loop asset (l :: rs) acc (some k) =
      steps_loop asset rs (merge_entry_at k (pyStrip l.text) acc) (some k)
    ∧ (merge_entry_at k (pyStrip l.text) acc).length = acc.length
    ∧ ((merge_entry_at k (pyStrip l.text) acc).getD k dfltStepEntry).item.text =
        (acc.getD k dfltStepEntry).item.text ++ " " ++ pyStrip l.text
    ∧ ((merge_entry_at k (pyStrip l.text) acc).getD k dfltStepEntry).span.extracted_text =
        (acc.getD k dfltStepEntry).span.extracted_text ++ " " ++ pyStrip l.text
    ∧ ((merge_entry_at k (pyStrip l.text) acc).getD k dfltStepEntry).span.bbox =
        (acc.getD k dfltStepEntry).span.bbox
    ∧ ((merge_entry_at k (pyStrip l.text) acc).getD k dfltStepEntry).span.page =
        (acc.getD k dfltStepEntry).span.page
    ∧ ((merge_entry_at k (pyStrip l.text) acc).getD k dfltStepEntry).span.ocr_confidence =
        (acc.getD k dfltStepEntry).span.ocr_confidence
    ∧ ((merge_entry_at k (pyStrip l.text) acc).getD k dfltStepEntry).span.field_path =
        (acc.getD k dfltStepEntry).span.field_path
    ∧ (∀ j, j ≠ k →
        (merge_entry_at k (pyStrip l.text) acc).getD j dfltStepEntry =
          acc.getD j dfltStepEntry) := by
  refine ⟨by simp [steps_loop, hne, hhd, hno, hst], ?_, ?_, ?_, ?_, ?_, ?_, ?_, ?_⟩
  · exact modAt_length _ acc k
  · rw [merge_entry_at, getD_modAt_self _ _ acc k hk]
  · rw [merge_entry_at, getD_modAt_self _ _ acc k hk]
  · rw [merge_entry_at, getD_modAt_self _ _ acc k hk]
  · rw [merge_entry_at, getD_modAt_self _ _ acc k hk]
  · rw [merge_entry_at, getD_modAt_self _ _ acc k hk]
  · rw [merge_entry_at, getD_modAt_self _ _ acc k hk]
  · intro j hj
    rw [merge_entry_at, getD_modAt_ne _ _ acc k j hj]

/-- Witness for C7: the merge applied to the concrete continuation line
`"and add pasta."` after `"1. Boil water"`, together with the end-to-end
evaluation: the two steps-range lines produce exactly one Step with text
`"1. Boil water and add pasta."` whose span keeps the bbox of the first
line. -/
theorem c7_step_continuation_merge_witness :
    steps_loop "a" [stepLn2] [stepEntry1] (some 0) =
      steps_loop "a" [] (merge_entry_at 0 (pyStrip stepLn2.text) [stepEntry1]) (some 0)
    ∧ extract_steps [stepLn1, stepLn2] (some 0) "a" =
        [⟨⟨"1. Boil water and add pasta."⟩,
          ⟨"steps[0].text", "a", 0, ⟨0, 100, 200, 20⟩, 1, "1. Boil water and add pasta."⟩,
          ⟨"steps[0].text", "extracted", none⟩⟩] :=
  ⟨(c7_step_continuation_merge "a" stepLn2 [] [stepEntry1] 0 (by decide) (by decide)
      (by decide) (by decide) (by decide)).1,
   by decide⟩

/-- Every entry produced by the ingredient loop carries the stripped text of
one of the scanned lines as `original_text`. -/
theorem ing_loop_src (asset : String) (relax : Bool) :
    ∀ (seg : List OCRLineData) (count : Nat) (e : IngEntry),
      e ∈ ing_loop asset relax count seg →
      ∃ l ∈ seg, e.item.original_text = pyStrip l.text := by
  intro seg
  induction seg with
  | nil => intro count e h; simp [ing_loop] at h
  | cons l rs ih =>
    intro count e h
    rw [ing_loop] at h
    repeat' split at h
    all_goals
      first
      | (obtain ⟨l', hl', he⟩ := ih _ _ h
         exact ⟨l', List.mem_cons_of_mem _ hl', he⟩)
      | (rcases List.mem_cons.mp h with rfl | h'
         · exact ⟨l, List.mem_cons_self _ _, rfl⟩
         · obtain ⟨l', hl', he⟩ := ih _ _ h'
           exact ⟨l', List.mem_cons_of_mem _ hl', he⟩)

/-- `ing_loop_src`, lifted through the range restriction of
`_extract_ingredients`. -/
theorem extract_ing_src (lines : List OCRLineData) (range : Option (Nat × Nat))
    (asset : String) (relax : Bool) (e : IngEntry)
    (h : e ∈ extract_ingredients lines range asset relax) :
    ∃ l ∈ lines, e.item.original_text = pyStrip l.text := by
  rw [extract_ingredients.eq_def] at h
  split at h
  · simp at h
  · obtain ⟨l, hl, he⟩ := ing_loop_src _ _ _ _ _ h
    exact ⟨l, List.drop_subset _ _ (List.take_subset _ _ hl), he⟩

/-- `extract_ing_src`, lifted through the strict/relaxed retry choice. -/
theorem parse_entries_src (lines : List OCRLineData) (range : Option (Nat × Nat))
    (asset : String) (e : IngEntry)
    (h : e ∈ parse_ingredient_entries lines range asset) :
    ∃ l ∈ lines, e.item.original_text = pyStrip l.text := by
  simp only [parse_ingredient_entries] at h
  split at h
  · split at h
    · exact extract_ing_src _ _ _ _ _ h
    · exact extract_ing_src _ _ _ _ _ h
  · exact extract_ing_src _ _ _ _ _ h

/-- Claim C9 (counterexample): `original_text` is the *stripped* line text,
not the exact source text — a line with surrounding whitespace is accepted,
and no produced `original_text` equals its exact text. -/
theorem c9_original_text_counterexample :
    ((parse [mkLn " Ingredients", mkLn " 400g butter "] "a").recipe.ingredients.map
        (fun i => i.original_text)) = ["400g butter"]
    ∧ (([mkLn " Ingredients", mkLn " 400g butter "].map (fun l => l.text)).contains
        "400g butter") = false := by
  exact ⟨by decide, by decide⟩

/-- Claim C9 (amended): for every Ingredient produced by any parse (strict
or relaxed pass), `original_text` equals the whitespace-stripped text of the
source OCR line it was extracted from (stripping is the only transformation;
the value is set once at creation and never overwritten). -/
theorem c9_original_text_amended (lines : List OCRLineData) (asset : String)
    (ing : Ingredient) (h : ing ∈ (parse lines asset).recipe.ingredients) :
    ∃ l ∈ lines, ing.original_text = pyStrip l.text := by
  rw [parse] at h
  split at h
  · simp [emptyParseResult] at h
  · simp only [List.mem_map] at h
    obtain ⟨e, he, rfl⟩ := h
    exact parse_entries_src _ _ _ _ he

/-- Witness for C9: the amended statement applied to the ingredient
produced from the padded line `" 400g butter "`. -/
theorem c9_original_text_amended_witness :
    ∃ l ∈ [mkLn " Ingredients", mkLn " 400g butter "],
      (⟨none, none, false, "400g butter"⟩ : Ingredient).original_text = pyStrip l.text :=
  c9_original_text_amended [mkLn " Ingredients", mkLn " 400g butter "] "a"
    ⟨none, none, false, "400g butter"⟩ (by decide)

/-- Claim C10: for every Ingredient produced by the ingredient-line parser,
the `optional` flag is set iff the case-insensitive substring `"optional"`
occurs in the line text after the leading bullet/number/punctuation run is
stripped. -/
theorem c10_optional_flag (s : String) (core : IngredientCore)
    (h : parse_ingredient_line s = some core) :
    core.optional = strHasSub "optional" (pyLower (pyStrip (stripLeadingJunk (pyStrip s)))) := by
  rw [parse_ingredient_line] at h
  by_cases h0 : pyStrip s = ""
  · simp [h0] at h
  · simp only [h0, if_false] at h
    split at h
    · exact (Option.some_inj.mp h) ▸ rfl
    · split at h
      · exact (Option.some_inj.mp h) ▸ rfl
      · split at h
        · exact (Option.some_inj.mp h) ▸ rfl
        · exact (Option.some_inj.mp h) ▸ rfl

/-- Witness for C10: the flag characterization at the concrete line
`"1 cup sugar (optional)"`. -/
theorem c10_optional_flag_witness :
    parse_ingredient_line "1 cup sugar (optional)" = some ⟨none, none, true⟩
    ∧ (⟨none, none, true⟩ : IngredientCore).optional =
        strHasSub "optional"
          (pyLower (pyStrip (stripLeadingJunk (pyStrip "1 cup sugar (optional)")))) :=
  ⟨by decide, c10_optional_flag _ _ (by decide)⟩

/-! ### Bridge lemmas: executable `ℚ` operations vs the Mathlib operations -/

/-- `qAdd` is addition. -/
theorem qAdd_eq (a b : ℚ) : qAdd a b = a + b := by
  have ha : ((a.den : ℚ)) ≠ 0 := (Nat.cast_ne_zero (R := ℚ)).mpr a.den_nz
  have hb : ((b.den : ℚ)) ≠ 0 := (Nat.cast_ne_zero (R := ℚ)).mpr b.den_nz
  rw [qAdd, Rat.divInt_eq_div]
  conv_rhs => rw [← Rat.num_div_den a, ← Rat.num_div_den b]
  push_cast
  rw [div_add_div _ _ ha hb]
  ring_nf

/-- `qSub` is subtraction. -/
theorem qSub_eq (a b : ℚ) : qSub a b = a - b := by
  have ha : ((a.den : ℚ)) ≠ 0 := (Nat.cast_ne_zero (R := ℚ)).mpr a.den_nz
  have hb : ((b.den : ℚ)) ≠ 0 := (Nat.cast_ne_zero (R := ℚ)).mpr b.den_nz
  rw [qSub, Rat.divInt_eq_div]
  conv_rhs => rw [← Rat.num_div_den a, ← Rat.num_div_den b]
  push_cast
  rw [div_sub_div _ _ ha hb]
  ring_nf

/-- `qDiv` is division. -/
theorem qDiv_eq (a b : ℚ) : qDiv a b = a / b := by
  rcases eq_or_ne b 0 with rfl | hb0
  · rw [qDiv, Rat.divInt_eq_div]
    norm_num
  · have ha : ((a.den : ℚ)) ≠ 0 := (Nat.cast_ne_zero (R := ℚ)).mpr a.den_nz
    have hbd : ((b.den : ℚ)) ≠ 0 := (Nat.cast_ne_zero (R := ℚ)).mpr b.den_nz
    have hbn : ((b.num : ℚ)) ≠ 0 := by
      exact_mod_cast (Int.cast_ne_zero (α := ℚ)).mpr (Rat.num_ne_zero.mpr hb0)
    rw [qDiv, Rat.divInt_eq_div]
    conv_rhs => rw [← Rat.num_div_den a, ← Rat.num_div_den b]
    push_cast
    rw [div_div_div_comm]
    rw [div_div_eq_mul_div, div_mul_eq_mul_div, mul_comm]
    field_simp
    left
    ring

/-- `qMin2` is the binary minimum. -/
theorem qMin2_eq (a b : ℚ) : qMin2 a b = min a b := by
  rw [qMin2, min_def]
  by_cases h : Rat.blt b a
  · rw [if_pos h, if_neg (not_le.mpr (show b < a from h))]
  · rw [if_neg h, if_pos (le_of_not_lt (show ¬ b < a from h))]

/-- `qMax2` is the binary maximum. -/
theorem qMax2_eq (a b : ℚ) : qMax2 a b = max a b := by
  rw [qMax2, max_def]
  by_cases h : Rat.blt a b
  · rw [if_pos h, if_pos (le_of_lt (show a < b from h))]
  · rw [if_neg h]
    have hba : b ≤ a := le_of_not_lt (show ¬ a < b from h)
    by_cases hab : a ≤ b
    · rw [if_pos hab]
      exact le_antisymm hab hba
    · rw [if_neg hab]

/-- A `qMin2` fold is bounded by its initial value. -/
theorem foldl_qMin2_le_init : ∀ (l : List ℚ) (a : ℚ), l.foldl qMin2 a ≤ a
  | [], a => le_refl a
  | b :: l, a => by
    rw [List.foldl_cons]
    exact le_trans (foldl_qMin2_le_init l (qMin2 a b)) (by rw [qMin2_eq]; exact min_le_left a b)

/-- A `qMin2` fold is bounded by every element folded over. -/
theorem foldl_qMin2_le_mem : ∀ (l : List ℚ) (a x : ℚ), x ∈ l → l.foldl qMin2 a ≤ x
  | [], _, _, h => absurd h (List.not_mem_nil _)
  | b :: l, a, x, h => by
    rw [List.foldl_cons]
    rcases List.mem_cons.mp h with rfl | h'
    · exact le_trans (foldl_qMin2_le_init l (qMin2 a x)) (by rw [qMin2_eq]; exact min_le_right a x)
    · exact foldl_qMin2_le_mem l (qMin2 a b) x h'

/-- A lower bound of the initial value and of all elements bounds a `qMin2`
fold from below. -/
theorem le_foldl_qMin2 : ∀ (l : List ℚ) (a c : ℚ), c ≤ a → (∀ x ∈ l, c ≤ x) → c ≤ l.foldl qMin2 a
  | [], a, c, ha, _ => ha
  | b :: l, a, c, ha, hl => by
    rw [List.foldl_cons]
    exact le_foldl_qMin2 l (qMin2 a b) c
      (by rw [qMin2_eq]; exact le_min ha (hl b (List.mem_cons_self _ _)))
      (fun x hx => hl x (List.mem_cons_of_mem _ hx))

/-- A `qMax2` fold dominates its initial value. -/
theorem foldl_qMax2_ge_init : ∀ (l : List ℚ) (a : ℚ), a ≤ l.foldl qMax2 a
  | [], a => le_refl a
  | b :: l, a => by
    rw [List.foldl_cons]
    exact le_trans (by rw [qMax2_eq]; exact le_max_left a b) (foldl_qMax2_ge_init l (qMax2 a b))

/-- A `qMax2` fold dominates every element folded over. -/
theorem foldl_qMax2_ge_mem : ∀ (l : List ℚ) (a x : ℚ), x ∈ l → x ≤ l.foldl qMax2 a
  | [], _, _, h => absurd h (List.not_mem_nil _)
  | b :: l, a, x, h => by
    rw [List.foldl_cons]
    rcases List.mem_cons.mp h with rfl | h'
    · exact le_trans (by rw [qMax2_eq]; exact le_max_right a x) (foldl_qMax2_ge_init l (qMax2 a x))
    · exact foldl_qMax2_ge_mem l (qMax2 a b) x h'

/-- An upper bound of the initial value and of all elements bounds a `qMax2`
fold from above. -/
theorem foldl_qMax2_le : ∀ (l : List ℚ) (a c : ℚ), a ≤ c → (∀ x ∈ l, x ≤ c) → l.foldl qMax2 a ≤ c
  | [], a, c, ha, _ => ha
  | b :: l, a, c, ha, hl => by
    rw [List.foldl_cons]
    exact foldl_qMax2_le l (qMax2 a b) c
      (by rw [qMax2_eq]; exact max_le ha (hl b (List.mem_cons_self _ _)))
      (fun x hx => hl x (List.mem_cons_of_mem _ hx))

/-- `qSum` as a running fold. -/
theorem foldl_qAdd (l : List ℚ) : ∀ a : ℚ, l.foldl qAdd a = a + l.sum := by
  induction l with
  | nil => intro a; simp
  | cons b l ih =>
    intro a
    rw [List.foldl_cons, ih, qAdd_eq, List.sum_cons]
    ring

/-- `qSum` is the list sum. -/
theorem qSum_eq (l : List ℚ) : qSum l = l.sum := by
  rw [qSum, foldl_qAdd]
  ring

/-- The minimum of a nonempty list bounds its members. -/
theorem qListMin_le (l : List ℚ) (x : ℚ) (h : x ∈ l) : qListMin l ≤ x := by
  match l, h with
  | a :: as, h =>
    rw [qListMin]
    rcases List.mem_cons.mp h with rfl | h'
    · exact foldl_qMin2_le_init as x
    · exact foldl_qMin2_le_mem as a x h'

/-- A common lower bound of a nonempty list bounds its minimum. -/
theorem le_qListMin (l : List ℚ) (c : ℚ) (hne : l ≠ []) (h : ∀ x ∈ l, c ≤ x) :
    c ≤ qListMin l := by
  match l, hne with
  | a :: as, _ =>
    rw [qListMin]
    exact le_foldl_qMin2 as a c (h a (List.mem_cons_self _ _))
      (fun x hx => h x (List.mem_cons_of_mem _ hx))

/-- The maximum of a nonempty list dominates its members. -/
theorem qListMax_ge (l : List ℚ) (x : ℚ) (h : x ∈ l) : x ≤ qListMax l := by
  match l, h with
  | a :: as, h =>
    rw [qListMax]
    rcases List.mem_cons.mp h with rfl | h'
    · exact foldl_qMax2_ge_init as x
    · exact foldl_qMax2_ge_mem as a x h'

/-- A common upper bound of a nonempty list dominates its maximum. -/
theorem qListMax_le (l : List ℚ) (c : ℚ) (hne : l ≠ []) (h : ∀ x ∈ l, x ≤ c) :
    qListMax l ≤ c := by
  match l, hne with
  | a :: as, _ =>
    rw [qListMax]
    exact foldl_qMax2_le as a c (h a (List.mem_cons_self _ _))
      (fun x hx => h x (List.mem_cons_of_mem _ hx))

/-- Claim C8: the evidence builder returns null exactly when no cited ID
resolves to a known line; otherwise it returns a Span carrying the given
field path, asset id and text, `source_method = "vision-api"`, the first
resolved line as page source, the axis-aligned union of the resolved
bboxes — componentwise minimum corner, maximum far corner, containing every
cited bbox — and the arithmetic mean of the resolved confidences
(stated multiplicatively: confidence times the number of resolved lines
equals their summed confidence). -/
theorem c8_evidence_span (fp et : String) (ids : List String)
    (m : List (String × WLine)) (aid : String) :
    (build_span_from_evidence fp et ids m aid = none ↔ resolvedLines ids m = [])
    ∧ ∀ sp : WSpan, build_span_from_evidence fp et ids m aid = some sp →
        sp.field_path = fp ∧ sp.asset_id = aid ∧ sp.extracted_text = et
        ∧ sp.source_method = "vision-api" ∧ sp.evidence_ids = ids
        ∧ sp.page = ((resolvedLines ids m).headD dfltWLine).page
        ∧ sp.bbox.x = qListMin ((resolvedLines ids m).map (fun wl => wl.bbox.x))
        ∧ sp.bbox.y = qListMin ((resolvedLines ids m).map (fun wl => wl.bbox.y))
        ∧ sp.bbox.x + sp.bbox.w =
            qListMax ((resolvedLines ids m).map (fun wl => wl.bbox.x + wl.bbox.w))
        ∧ sp.bbox.y + sp.bbox.h =
            qListMax ((resolvedLines ids m).map (fun wl => wl.bbox.y + wl.bbox.h))
        ∧ (∀ wl ∈ resolvedLines ids m,
            sp.bbox.x ≤ wl.bbox.x ∧ sp.bbox.y ≤ wl.bbox.y
            ∧ wl.bbox.x + wl.bbox.w ≤ sp.bbox.x + sp.bbox.w
            ∧ wl.bbox.y + wl.bbox.h ≤ sp.bbox.y + sp.bbox.h)
        ∧ sp.confidence * ((resolvedLines ids m).length : ℚ) =
            ((resolvedLines ids m).map (fun wl => wl.confidence)).sum := by
  constructor
  · rw [build_span_from_evidence]
    split
    · next hemp => simp [List.isEmpty_iff.mp hemp]
    · next hemp =>
      refine ⟨fun h => absurd h (by simp), fun h => absurd ?_ hemp⟩
      rw [h]
      rfl
  · intro sp hsp
    rw [build_span_from_evidence] at hsp
    split at hsp
    · exact absurd hsp (by simp)
    · next hemp =>
      injection hsp with hsp
      subst hsp
      rcases hL : resolvedLines ids m with _ | ⟨w, ws⟩
      · rw [hL] at hemp
        simp at hemp
      · refine ⟨rfl, rfl, rfl, rfl, rfl, rfl, ?_, ?_, ?_, ?_, ?_, ?_⟩
        · simp only [union_bboxes, List.map_cons, List.map_map, Function.comp_def]
        · simp only [union_bboxes, List.map_cons, List.map_map, Function.comp_def]
        · simp only [union_bboxes, List.map_cons, List.map_map, Function.comp_def,
            qSub_eq, qAdd_eq]
          ring
        · simp only [union_bboxes, List.map_cons, List.map_map, Function.comp_def,
            qSub_eq, qAdd_eq]
          ring
        · intro wl hwl
          simp only [union_bboxes, List.map_cons, List.map_map, Function.comp_def,
            qSub_eq, qAdd_eq]
          refine ⟨?_, ?_, ?_, ?_⟩
          · exact qListMin_le _ _ (by
              rw [show ((w.bbox.x :: List.map (fun wl => wl.bbox.x) ws)) =
                (w :: ws).map (fun wl => wl.bbox.x) from rfl]
              exact List.mem_map_of_mem _ hwl)
          · exact qListMin_le _ _ (by
              rw [show ((w.bbox.y :: List.map (fun wl => wl.bbox.y) ws)) =
                (w :: ws).map (fun wl => wl.bbox.y) from rfl]
              exact List.mem_map_of_mem _ hwl)
          · have hmax := qListMax_ge ((w :: ws).map (fun wl => wl.bbox.x + wl.bbox.w)) _
              (List.mem_map_of_mem (fun wl => wl.bbox.x + wl.bbox.w) hwl)
            simp only [List.map_cons] at hmax
            calc wl.bbox.x + wl.bbox.w ≤ _ := hmax
              _ = _ := by ring
          · have hmax := qListMax_ge ((w :: ws).map (fun wl => wl.bbox.y + wl.bbox.h)) _
              (List.mem_map_of_mem (fun wl => wl.bbox.y + wl.bbox.h) hwl)
            simp only [List.map_cons] at hmax
            calc wl.bbox.y + wl.bbox.h ≤ _ := hmax
              _ = _ := by ring
        · rw [qDiv_eq, qSum_eq, Rat.mkRat_one]
          have hlen : (((w :: ws).length : ℚ)) ≠ 0 := by
            simp [List.length_cons]
            positivity
          rw [show ((Int.ofNat (w :: ws).length : ℚ)) = (((w :: ws).length : ℚ)) from by
            rfl]
          rw [div_mul_cancel₀ _ hlen]

/-- Witness for C8: the builder evaluated on two resolved ids and one
unresolved id; the unresolved id is dropped, the bbox is the union
rectangle and the confidence the mean. -/
theorem c8_evidence_span_witness :
    build_span_from_evidence "title" "Pasta" wids wmap "a" = some wspan
    ∧ wspan.source_method = "vision-api"
    ∧ wspan.page = ((resolvedLines wids wmap).headD dfltWLine).page
    ∧ wspan.bbox.x = qListMin ((resolvedLines wids wmap).map (fun wl => wl.bbox.x))
    ∧ wspan.confidence * ((resolvedLines wids wmap).length : ℚ) =
        ((resolvedLines wids wmap).map (fun wl => wl.confidence)).sum :=
  have H := (c8_evidence_span "title" "Pasta" wids wmap "a").2 wspan (by decide)
  ⟨by decide, H.2.2.2.1, H.2.2.2.2.2.1, H.2.2.2.2.2.2.1, H.2.2.2.2.2.2.2.2.2.2.2⟩

/-- A predicate holding on no scanned line yields no indices. -/
theorem idxs_from_nil_of (p : OCRLineData → Bool) :
    ∀ (lines : List OCRLineData) (i : Nat), (∀ l ∈ lines, p l = false) →
      idxs_from p i lines = []
  | [], _, _ => rfl
  | l :: rs, i, h => by
    rw [idxs_from, h l (List.mem_cons_self _ _)]
    simp only [Bool.false_eq_true, if_false]
    exact idxs_from_nil_of p rs (i + 1) (fun x hx => h x (List.mem_cons_of_mem _ hx))

/-- The first detected index is the position of the first satisfying line. -/
theorem idxs_from_head (p : OCRLineData → Bool) (l0 : OCRLineData)
    (post : List OCRLineData) (hl0 : p l0 = true) :
    ∀ (pre : List OCRLineData) (i : Nat), (∀ l ∈ pre, p l = false) →
      idxs_from p i (pre ++ l0 :: post) =
        (i + pre.length) :: idxs_from p (i + pre.length + 1) post
  | [], i, _ => by
    rw [List.nil_append, idxs_from, hl0]
    simp
  | l :: rs, i, h => by
    rw [List.cons_append, idxs_from, h l (List.mem_cons_self _ _)]
    simp only [Bool.false_eq_true, if_false]
    rw [idxs_from_head p l0 post hl0 rs (i + 1) (fun x hx => h x (List.mem_cons_of_mem _ hx))]
    have hlen : i + (l :: rs).length = i + 1 + rs.length := by
      simp only [List.length_cons]
      omega
    rw [hlen]

/-- With no explicit title header on a nonempty input, `_detect_sections`
injects index 0 as the title index. -/
theorem detect_title_default (lines : List OCRLineData) (h0 : lines ≠ [])
    (hnohdr : ∀ l ∈ lines, is_title_header_line l = false) :
    (detect_sections lines).title_indices = [0] := by
  rw [detect_sections]
  simp only [idxs_from_nil_of _ _ _ hnohdr, List.isEmpty_nil, Bool.true_and]
  simp [h0]

/-- `_extract_title` with a first title index `i` takes the line after `i`
(when it exists) and returns its stripped text, provided that text is
nonempty, not noise, and not a long descriptive sentence. -/
theorem extract_title_at (lines : List OCRLineData) (i : Nat) (rest : List Nat) (asset : String)
    (h0 : lines ≠ [])
    (hidx : i + 1 < lines.length)
    (hne : pyStrip ((lines.getD (i + 1) dfltLine).text) ≠ "")
    (hnoise : is_noise_line (pyStrip ((lines.getD (i + 1) dfltLine).text)) = false)
    (hlong : (decide (120 < (pyStrip ((lines.getD (i + 1) dfltLine).text)).length)
        || (strHasSub ". " (pyStrip ((lines.getD (i + 1) dfltLine).text))
            && decide (8 < (pyWords (pyStrip ((lines.getD (i + 1) dfltLine).text))).length)))
        = false) :
    extract_title lines (i :: rest) asset =
      some (pyStrip ((lines.getD (i + 1) dfltLine).text),
        ⟨"title", asset, (lines.getD (i + 1) dfltLine).page, (lines.getD (i + 1) dfltLine).bbox,
         (lines.getD (i + 1) dfltLine).confidence, pyStrip ((lines.getD (i + 1) dfltLine).text)⟩,
        ⟨"title", "extracted", none⟩) := by
  rw [extract_title.eq_def]
  match lines, h0 with
  | a :: rs, _ =>
    simp only [if_pos hidx, hne, hnoise, hlong]
    simp

/-- Claim C6 (counterexample): with no explicit title header, the first line
(>3 chars, ≥2 words, not noise) is *not* chosen as the title; the parser
takes the second line instead, because `_detect_sections` injects index 0 as
a pseudo title header and `_extract_title` uses the line after it. -/
theorem c6_title_selection_counterexample :
    (parse [mkLn "Chocolate Cake", mkLn "Tasty treat"] "a").recipe.title = some "Tasty treat"
    ∧ 3 < (pyStrip (mkLn "Chocolate Cake").text).length
    ∧ 2 ≤ (pyWords (mkLn "Chocolate Cake").text).length
    ∧ is_noise_line "Chocolate Cake" = false
    ∧ (parse [mkLn "Chocolate Cake", mkLn "Tasty treat"] "a").recipe.title ≠
        some "Chocolate Cake" := by
  exact ⟨by decide, by decide, by decide, by decide, by decide⟩

/-- Claim C6 (amended): when an explicit title header exists, the title is
the stripped text of the line immediately after the first title-header line;
when none exists, index 0 is treated as a pseudo title header, so for inputs
of at least two lines the title is the stripped text of the line at index 1
(the first-5-lines candidate scan in the code is unreachable from `parse`).
Both statements assume the chosen line survives the emptiness, noise, and
long-descriptive-sentence checks. -/
theorem c6_title_selection_amended :
    (∀ (lines : List OCRLineData) (asset : String),
      2 ≤ lines.length →
      (∀ l ∈ lines, is_title_header_line l = false) →
      pyStrip ((lines.getD 1 dfltLine).text) ≠ "" →
      is_noise_line (pyStrip ((lines.getD 1 dfltLine).text)) = false →
      (decide (120 < (pyStrip ((lines.getD 1 dfltLine).text)).length)
        || (strHasSub ". " (pyStrip ((lines.getD 1 dfltLine).text))
            && decide (8 < (pyWords (pyStrip ((lines.getD 1 dfltLine).text))).length))) = false →
      (parse lines asset).recipe.title = some (pyStrip ((lines.getD 1 dfltLine).text)))
    ∧ (∀ (pre : List OCRLineData) (l0 : OCRLineData) (post : List OCRLineData) (asset : String),
      (∀ l ∈ pre, is_title_header_line l = false) →
      is_title_header_line l0 = true →
      pre.length + 1 < (pre ++ l0 :: post).length →
      pyStrip (((pre ++ l0 :: post).getD (pre.length + 1) dfltLine).text) ≠ "" →
      is_noise_line (pyStrip (((pre ++ l0 :: post).getD (pre.length + 1) dfltLine).text)) = false →
      (decide (120 < (pyStrip (((pre ++ l0 :: post).getD (pre.length + 1) dfltLine).text)).length)
        || (strHasSub ". " (pyStrip (((pre ++ l0 :: post).getD (pre.length + 1) dfltLine).text))
            && decide (8 < (pyWords (pyStrip (((pre ++ l0 :: post).getD
                (pre.length + 1) dfltLine).text))).length))) = false →
      (parse (pre ++ l0 :: post) asset).recipe.title =
        some (pyStrip (((pre ++ l0 :: post).getD (pre.length + 1) dfltLine).text))) := by
  constructor
  · intro lines asset hlen hnohdr hne hnoise hlong
    have h0 : lines ≠ [] := by
      intro h
      rw [h] at hlen
      simp at hlen
    have hempF : lines.isEmpty = false := by
      cases lines
      · exact absurd rfl h0
      · rfl
    have hdet := detect_title_default lines h0 hnohdr
    rw [parse, hempF]
    simp only [Bool.false_eq_true, if_false, hdet]
    rw [extract_title_at lines 0 [] asset h0 (by omega) hne hnoise hlong]
    simp
  · intro pre l0 post asset hpre hl0 hidx hne hnoise hlong
    have h0 : pre ++ l0 :: post ≠ [] := by simp
    have hempF : (pre ++ l0 :: post).isEmpty = false := by
      cases pre <;> rfl
    have hdet : (detect_sections (pre ++ l0 :: post)).title_indices =
        pre.length :: idxs_from is_title_header_line (pre.length + 1) post := by
      rw [detect_sections]
      simp only [idxs_from_head is_title_header_line l0 post hl0 pre 0 hpre, Nat.zero_add]
      simp
    rw [parse, hempF]
    simp only [Bool.false_eq_true, if_false, hdet]
    rw [extract_title_at _ pre.length _ asset h0 hidx hne hnoise hlong]
    simp

/-- Witness for C6: both amended branches applied at concrete inputs — the
no-header pair takes the second line, the `"Recipe"`-header pair takes the
line after the header. -/
theorem c6_title_selection_amended_witness :
    (parse [mkLn "Chocolate Cake", mkLn "Tasty treat"] "a").recipe.title = some "Tasty treat"
    ∧ (parse [mkLn "Recipe", mkLn "Apple Pie"] "a").recipe.title = some "Apple Pie" :=
  ⟨c6_title_selection_amended.1 [mkLn "Chocolate Cake", mkLn "Tasty treat"] "a"
      (by decide) (by decide) (by decide) (by decide) (by decide),
   c6_title_selection_amended.2 [] (mkLn "Recipe") [mkLn "Apple Pie"] "a"
      (by decide) (by decide) (by decide) (by decide) (by decide) (by decide)⟩

end RecipeNow
